import Mathlib

/-!
Verification of the response-extraction core of an LLM code-review backend
(`src/backend/main.py`).  Text is modelled as `List Char`.  Every concrete
regular expression of the source is embedded as an executable scanner with
the matching semantics of the Python `re` module on that pattern: leftmost
match for `re.search`, non-overlapping left-to-right scanning for
`re.findall` and `re.split`, greedy and lazy pieces as the pattern
dictates, `MULTILINE` anchors tracked by an explicit at-line-start flag.
Character classes use the ASCII portion of the corresponding Python
classes.
-/

namespace CodeRev

/-- Python whitespace class (ASCII part): blank, tab, newline, carriage
return, vertical tab, form feed. -/
def pyIsSpace (c : Char) : Bool :=
  decide (c = ' ' ∨ c = '\t' ∨ c = '\n' ∨ c = '\r' ∨ c = '\x0b' ∨ c = '\x0c')

/-- Python word-character class (ASCII part). -/
def isWordChar (c : Char) : Bool :=
  decide (('a' ≤ c ∧ c ≤ 'z') ∨ ('A' ≤ c ∧ c ≤ 'Z') ∨ ('0' ≤ c ∧ c ≤ '9') ∨ c = '_')

/-- Python decimal-digit class (ASCII part). -/
def isDigitChar (c : Char) : Bool :=
  decide ('0' ≤ c ∧ c ≤ '9')

/-- Python str.strip: remove leading and trailing whitespace. -/
def pyStrip (s : List Char) : List Char :=
  ((s.dropWhile pyIsSpace).reverse.dropWhile pyIsSpace).reverse

/-- Python str.split on a newline character: the pieces between newlines,
empty pieces included. -/
def splitLines : List Char → List (List Char)
  | [] => [[]]
  | c :: r =>
    if c = '\n' then [] :: splitLines r
    else
      match splitLines r with
      | [] => [[c]]
      | l :: ls => (c :: l) :: ls

/-- Index of the first occurrence of `p` as a contiguous sublist of `s`. -/
def findOcc (p : List Char) : List Char → Option Nat
  | [] => if p.isPrefixOf ([] : List Char) then some 0 else none
  | c :: r => if p.isPrefixOf (c :: r) then some 0 else (findOcc p r).map (· + 1)

/-- Embedding of a section search of the shape
`re.search(heading + lazy dot-star + lookahead(term or end), text, DOTALL)`:
the match runs from the first occurrence of the heading literal to the
first following occurrence of the terminator literal (or the end of the
text), heading included. -/
def sectionFor (heading term t : List Char) : Option (List Char) :=
  match findOcc heading t with
  | none => none
  | some i =>
    let after := t.drop (i + heading.length)
    let j := (findOcc term after).getD after.length
    some (heading ++ after.take j)

/-- Length of the leading whitespace run. -/
def wsRun (s : List Char) : Nat := (s.takeWhile pyIsSpace).length

/-- Attempt of the bullet pattern (line-start anchor, whitespace run, a
dash or star, one whitespace character) at the current position.  The
whitespace run is forced to be maximal because a dash or star is not
whitespace.  Returns the matched length and whether the final matched
character is a newline. -/
def bulletMatchAt (s : List Char) : Option (Nat × Bool) :=
  let k := wsRun s
  match s.drop k with
  | c :: d :: _ =>
    if (c == '-' || c == '*') && pyIsSpace d then some (k + 2, d == '\n') else none
  | _ => none

/-- Fuelled scan counting the non-overlapping matches of the MULTILINE
bullet pattern, as `re.findall` does: `atStart` records whether the
current position is the start of the text or preceded by a newline. -/
def countBulletsF : Nat → List Char → Bool → Nat
  | 0, _, _ => 0
  | Nat.succ fuel, s, atStart =>
    match s with
    | [] => 0
    | c :: r =>
      if atStart then
        match bulletMatchAt (c :: r) with
        | some (n, nl) => 1 + countBulletsF fuel ((c :: r).drop n) nl
        | none => countBulletsF fuel r (c == '\n')
      else countBulletsF fuel r (c == '\n')

/-- Number of bullet lines detected in a section text. -/
def countBullets (s : List Char) (atStart : Bool) : Nat :=
  countBulletsF s.length s atStart

/-- The fallback proxy count of the source: lines whose stripped form is
non-empty and does not start with a hash character. -/
def fallbackLineCount (s : List Char) : Nat :=
  ((splitLines s).filter (fun p =>
    let q := pyStrip p
    !q.isEmpty && !(q.headD ' ' == '#'))).length

/-- Attempt, at the current position, of the suggestion-splitting pattern:
an ordered-list marker (whitespace run, digits, a dot, one whitespace
character) or, failing that, the bullet marker.  Both alternatives are
line-start anchored; the digit run is forced to be maximal because a dot
is not a digit. -/
def markerMatchAt (s : List Char) : Option (Nat × Bool) :=
  let k := wsRun s
  let t := s.drop k
  let dn := (t.takeWhile isDigitChar).length
  match t.drop dn with
  | '.' :: d :: _ =>
    if decide (0 < dn) && pyIsSpace d then some (k + dn + 2, d == '\n')
    else bulletMatchAt s
  | _ => bulletMatchAt s

/-- Prepend a character to the first piece of a split result. -/
def consHead (c : Char) : List (List Char) → List (List Char)
  | [] => [[c]]
  | l :: ls => (c :: l) :: ls

/-- Fuelled embedding of `re.split` on the marker pattern (MULTILINE):
the pieces of the text between non-overlapping, line-start anchored
matches. -/
def splitMarkersF : Nat → List Char → Bool → List (List Char)
  | 0, _, _ => [[]]
  | Nat.succ fuel, s, atStart =>
    match s with
    | [] => [[]]
    | c :: r =>
      if atStart then
        match markerMatchAt (c :: r) with
        | some (n, nl) => [] :: splitMarkersF fuel ((c :: r).drop n) nl
        | none => consHead c (splitMarkersF fuel r (c == '\n'))
      else consHead c (splitMarkersF fuel r (c == '\n'))

/-- Split of a suggestion-section text on ordered-list or bullet markers. -/
def splitMarkers (s : List Char) (atStart : Bool) : List (List Char) :=
  splitMarkersF s.length s atStart

/-- Truncation of one suggestion fragment, as in the source conditional:
fragments longer than 200 characters are cut to 200 and an ellipsis is
appended. -/
def truncSugg (ic : List Char) : List Char :=
  if 200 < ic.length then ic.take 200 ++ "...".toList else ic

structure SeverityBreakdown where
  critical : Nat
  high : Nat
  medium : Nat
  low : Nat
  deriving DecidableEq

structure ParsedReview where
  issues_found : Nat
  severity_breakdown : SeverityBreakdown
  suggestions : List (List Char)
  deriving DecidableEq

def critHeading : List Char := "### 🔴 Critical Issues".toList
def highHeading : List Char := "### 🟠 High Priority".toList
def mediumHeading : List Char := "### 🟡 Medium Priority".toList
def lowHeading : List Char := "### 🟢 Low Priority".toList
def suggHeading : List Char := "## 🔧 Suggested Improvements".toList
def sevTerm : List Char := "###".toList
def suggTerm : List Char := "##".toList

/-- Count for one severity bucket: bullet lines of the located section,
with the non-empty-line fallback when that is zero, clamped to at least
one; zero when the heading is absent. -/
def severityCount (heading t : List Char) : Nat :=
  match sectionFor heading sevTerm t with
  | none => 0
  | some s =>
    let bc := countBullets s true
    let cnt := if bc = 0 then fallbackLineCount s else bc
    Nat.max cnt 1

/-- Suggestion collection of the source: split the located section on
markers, drop the text before the first marker, strip each fragment, keep
fragments longer than 20 characters, truncating long ones. -/
def extractSuggestions (t : List Char) : List (List Char) :=
  match sectionFor suggHeading suggTerm t with
  | none => []
  | some s =>
    ((splitMarkers s true).drop 1).foldl
      (fun acc item =>
        let ic := pyStrip item
        if 20 < ic.length then acc ++ [truncSugg ic] else acc) []

/-- Embedding of `parse_review_response`. -/
def parse_review_response (review_text : List Char) : ParsedReview :=
  let sb : SeverityBreakdown :=
    { critical := severityCount critHeading review_text
      high := severityCount highHeading review_text
      medium := severityCount mediumHeading review_text
      low := severityCount lowHeading review_text }
  { issues_found := sb.critical + sb.high + sb.medium + sb.low
    severity_breakdown := sb
    suggestions := (extractSuggestions review_text).take 10 }

/-! Rewritten-code extraction (the cascade of fenced-block patterns of
`rewrite_code`). -/

def ticks3 : List Char := "```".toList
def nlTicks : List Char := "\n```".toList
def rwHeader : List Char := "## ✨ Rewritten Code\n".toList
def explHeader : List Char := "## 📝 Explanation\n".toList
def improvHeader : List Char := "## 🎯 Key Improvements\n".toList

/-- Skip a maximal run of word characters (the optional language tag of a
fence: a starred word class forces the maximal run because a word
character is never the required following newline). -/
def dropTag : List Char → List Char
  | [] => []
  | c :: r => if isWordChar c then dropTag r else c :: r

/-- Close of a fence over the given candidate body: the lazy body runs to
the first newline-plus-three-backticks; without a closing fence the whole
attempt fails.  Returns the body and the remainder of the text after the
closing fence. -/
def fenceBody (body : List Char) : Option (List Char × List Char) :=
  match findOcc nlTicks body with
  | some k => some (body.take k, body.drop (k + 4))
  | none => none

/-- Attempt, at the current position, of the fence pattern: three
backticks, an optional word tag, a newline, then the lazy body. -/
def fenceAt (s : List Char) : Option (List Char × List Char) :=
  if ticks3.isPrefixOf s then
    match dropTag (s.drop 3) with
    | c :: body => if c = '\n' then fenceBody body else none
    | [] => none
  else none

/-- Attempt of the untagged fence pattern: three backticks immediately
followed by a newline, then the lazy body. -/
def fence2At (s : List Char) : Option (List Char × List Char) :=
  if ("```\n".toList).isPrefixOf s then fenceBody (s.drop 4) else none

/-- Attempt of the headed fence pattern: the Rewritten Code heading line
immediately followed by a fence. -/
def fence3At (s : List Char) : Option (List Char × List Char) :=
  if rwHeader.isPrefixOf s then fenceAt (s.drop rwHeader.length) else none

/-- Leftmost-match search: try the attempt function at every position,
left to right. -/
def scanFirst (f : List Char → Option (List Char × List Char)) :
    List Char → Option (List Char × List Char)
  | [] => f []
  | c :: rest =>
    match f (c :: rest) with
    | some r => some r
    | none => scanFirst f rest

def searchFence1 (t : List Char) : Option (List Char × List Char) := scanFirst fenceAt t

def searchFence2 (t : List Char) : Option (List Char × List Char) := scanFirst fence2At t

def searchFence3 (t : List Char) : Option (List Char × List Char) := scanFirst fence3At t

/-- Fuelled embedding of `re.findall` on the fence pattern: all
non-overlapping fence bodies, scanning left to right and resuming after
each closing fence. -/
def findallFencesF : Nat → List Char → List (List Char)
  | 0, _ => []
  | Nat.succ fuel, s =>
    (fenceAt s).elim
      (match s with
       | [] => []
       | _ :: r => findallFencesF fuel r)
      (fun pr => pr.1 :: findallFencesF fuel pr.2)

def findallFences (t : List Char) : List (List Char) := findallFencesF t.length t

/-- Python `max(blocks, key=len)`: the first block of maximal length. -/
def maxByLen (l : List (List Char)) : Option (List Char) :=
  l.foldl
    (fun acc x =>
      match acc with
      | none => some x
      | some b => if b.length < x.length then some x else some b)
    none

/-- Python falsiness of the running `rewritten_code` value: still unset,
or set to the empty string. -/
def falsy : Option (List Char) → Bool
  | none => true
  | some l => l.isEmpty

def fallbackNotice : List Char :=
  "# Could not extract rewritten code. Here\x27s the full response:\n\n".toList

/-- Embedding of the extraction cascade of `rewrite_code`: the tagged
fence search, then the untagged one, then the headed one, then the longest
of all fence bodies, each stripped result kept only when non-empty; when
everything fails, the full raw text behind a fixed notice. -/
def extractRewrittenCode (t : List Char) : List Char :=
  let c1 := (searchFence1 t).map (fun p => pyStrip p.1)
  let c2 := if falsy c1 then (searchFence2 t).map (fun p => pyStrip p.1) else c1
  let c3 := if falsy c2 then (searchFence3 t).map (fun p => pyStrip p.1) else c2
  let c4 := if falsy c3 then (maxByLen (findallFences t)).map pyStrip else c3
  if falsy c4 then fallbackNotice ++ t else c4.getD []

def defaultExplanation : List Char :=
  "Code has been rewritten with improvements.".toList

/-- Embedding of the explanation search: the text between the Explanation
heading and the next double-hash (or the end), stripped; a fixed default
when the heading is absent. -/
def extractExplanation (t : List Char) : List Char :=
  match findOcc explHeader t with
  | none => defaultExplanation
  | some i =>
    let after := t.drop (i + explHeader.length)
    let j := (findOcc suggTerm after).getD after.length
    pyStrip (after.take j)

/-- Fuelled embedding of `re.findall` on the dash-item pattern of the
improvements section: a dash and a blank anywhere, then a lazy run of
non-newline characters closed by a newline or the end of the text. -/
def findDashItemsF : Nat → List Char → List (List Char)
  | 0, _ => []
  | Nat.succ fuel, s =>
    if ("- ".toList).isPrefixOf s then
      let rest := s.drop 2
      let item := rest.takeWhile (fun c => !(c == '\n'))
      item :: findDashItemsF fuel (rest.drop (item.length + 1))
    else
      match s with
      | [] => []
      | _ :: r => findDashItemsF fuel r

def findDashItems (t : List Char) : List (List Char) := findDashItemsF t.length t

def defaultImprovements : List (List Char) :=
  ["Code refactored for better quality".toList,
   "Error handling improved".toList,
   "Performance optimized".toList,
   "Best practices applied".toList]

/-- Embedding of the improvements extraction: dash items of the Key
Improvements section, stripped, non-empty, at most five; a fixed default
list when none are found. -/
def extractImprovements (t : List Char) : List (List Char) :=
  let items :=
    match findOcc improvHeader t with
    | none => []
    | some i =>
      let after := t.drop (i + improvHeader.length)
      let j := (findOcc suggTerm after).getD after.length
      (((findDashItems (after.take j)).map pyStrip).filter
        (fun l => !l.isEmpty)).take 5
  if items.isEmpty then defaultImprovements else items

/-! Endpoint models.  The external completion API is a parameter: a
function from the system message and the user prompt to either an error
message (any upstream failure) or the completion text.  Each endpoint
returns its HTTP-level result together with the number of external calls
it performed. -/

structure CodeReviewRequest where
  code : List Char
  language : List Char
  focus_areas : List (List Char)
  deriving DecidableEq

structure CodeReviewResponse where
  review : List Char
  issues_found : Nat
  severity_breakdown : SeverityBreakdown
  suggestions : List (List Char)
  deriving DecidableEq

structure CodeRewriteRequest where
  code : List Char
  language : List Char
  review : List Char
  deriving DecidableEq

structure CodeRewriteResponse where
  original_code : List Char
  rewritten_code : List Char
  explanation : List Char
  improvements : List (List Char)
  deriving DecidableEq

structure HTTPExc where
  status : Nat
  detail : List Char
  deriving DecidableEq

deriving instance DecidableEq for Except

/-- Python str.join with a comma separator. -/
def joinComma : List (List Char) → List Char
  | [] => []
  | [x] => x
  | x :: y :: r => x ++ ", ".toList ++ joinComma (y :: r)

def reviewSystemMsg : List Char :=
  ("You are a senior software engineer specialized in code review. " ++
   "Provide detailed, actionable feedback. Always use bullet points (-) " ++
   "for each issue in the severity sections. You MUST analyze the provided code.").toList

def rewriteSystemMsg : List Char :=
  ("You are an expert software developer. Rewrite code to be " ++
   "production-ready, fixing all issues, improving performance, security, " ++
   "and maintainability. Always wrap the rewritten code in triple " ++
   "backticks with the language identifier.").toList

/-- The review prompt template of the source, with the language, the focus
areas and the code interpolated. -/
def buildReviewPrompt (req : CodeReviewRequest) : List Char :=
  "You are an expert code reviewer with 15+ years of experience. Analyze this ".toList
  ++ req.language
  ++ " code and provide a detailed review.\n\nFocus on: ".toList
  ++ joinComma req.focus_areas
  ++ "\n\nCode to review:\n```".toList
  ++ req.language
  ++ "\n".toList
  ++ req.code
  ++ ("\n```\n\nProvide your review in this format:\n\n" ++
      "## 🎯 Overall Assessment\n[Brief summary of code quality]\n\n" ++
      "## 🔍 Issues Found\n\n" ++
      "### 🔴 Critical Issues (Must Fix)\n" ++
      "- [List each critical bug or security vulnerability as separate bullet point]\n" ++
      "- [Another critical issue if exists]\n\n" ++
      "### 🟠 High Priority\n" ++
      "- [List high priority items as separate bullet points]\n" ++
      "- [Another high priority item if exists]\n\n" ++
      "### 🟡 Medium Priority\n" ++
      "- [List medium priority items as separate bullet points]\n" ++
      "- [Another medium priority item if exists]\n\n" ++
      "### 🟢 Low Priority\n" ++
      "- [List low priority items as separate bullet points]\n" ++
      "- [Another low priority item if exists]\n\n" ++
      "## ✅ Strengths\n[What\x27s done well]\n\n" ++
      "## 🔧 Suggested Improvements\n" ++
      "1. [Specific suggestion 1]\n" ++
      "2. [Specific suggestion 2]\n" ++
      "3. [Specific suggestion 3]\n\n" ++
      "Be specific, cite line numbers when relevant, and provide code snippets for fixes.").toList

/-- The rewrite prompt template of the source, with the language, the code
and the prior review interpolated. -/
def buildRewritePrompt (req : CodeRewriteRequest) : List Char :=
  "You are an expert ".toList
  ++ req.language
  ++ (" developer. Rewrite this code to fix all issues, improve performance, " ++
      "security, and follow best practices.\n\nOriginal Code:\n```").toList
  ++ req.language
  ++ "\n".toList
  ++ req.code
  ++ "\n```\n\nPrevious Review:\n".toList
  ++ req.review
  ++ ("\n\nProvide your response in this exact format:\n\n" ++
      "## ✨ Rewritten Code\n```").toList
  ++ req.language
  ++ ("\n[Your rewritten code here]\n```\n\n" ++
      "## 📝 Explanation\n[Explain what you changed and why, in 2-3 sentences]\n\n" ++
      "## 🎯 Key Improvements\n" ++
      "- Improvement 1: [Detail]\n" ++
      "- Improvement 2: [Detail]\n" ++
      "- Improvement 3: [Detail]\n" ++
      "- Improvement 4: [Detail]\n\n" ++
      "Make sure the rewritten code is production-ready, well-commented, and " ++
      "addresses all the issues mentioned in the review.").toList

/-- Embedding of the review endpoint: empty-after-strip code is rejected
with status 400 before any external call; an upstream failure surfaces as
status 500; otherwise the raw completion is parsed and packaged.  The
second component counts external completion calls. -/
def review_code (complete : List Char → List Char → Except (List Char) (List Char))
    (request : CodeReviewRequest) : Except HTTPExc CodeReviewResponse × Nat :=
  if (pyStrip request.code).isEmpty then
    (Except.error ⟨400, "Code cannot be empty".toList⟩, 0)
  else
    match complete reviewSystemMsg (buildReviewPrompt request) with
    | Except.error e =>
      (Except.error ⟨500, "Error during code review: ".toList ++ e⟩, 1)
    | Except.ok review_text =>
      let parsed := parse_review_response review_text
      (Except.ok
        { review := review_text
          issues_found := parsed.issues_found
          severity_breakdown := parsed.severity_breakdown
          suggestions := parsed.suggestions }, 1)

/-- Embedding of the rewrite endpoint: empty-after-strip code is rejected
with status 400 before any external call; an upstream failure surfaces as
status 500; otherwise the raw completion is processed by the extraction
cascade.  The second component counts external completion calls. -/
def rewrite_code (complete : List Char → List Char → Except (List Char) (List Char))
    (request : CodeRewriteRequest) : Except HTTPExc CodeRewriteResponse × Nat :=
  if (pyStrip request.code).isEmpty then
    (Except.error ⟨400, "Code cannot be empty".toList⟩, 0)
  else
    match complete rewriteSystemMsg (buildRewritePrompt request) with
    | Except.error e =>
      (Except.error ⟨500, "Error during code rewrite: ".toList ++ e⟩, 1)
    | Except.ok rewrite_text =>
      (Except.ok
        { original_code := request.code
          rewritten_code := extractRewrittenCode rewrite_text
          explanation := extractExplanation rewrite_text
          improvements := extractImprovements rewrite_text }, 1)

/-! Supporting lemmas. -/

/-- The backtick character, named to keep it out of the scanners below. -/
def btick : Char := Char.ofNat 96

theorem ticks3_eq : ticks3 = [btick, btick, btick] := by decide

theorem nlTicks_eq : nlTicks = '\n' :: [btick, btick, btick] := by decide

theorem isEmpty_false_of_ne {l : List Char} (h : l ≠ []) : l.isEmpty = false := by
  cases l with
  | nil => exact absurd rfl h
  | cons c r => rfl

theorem findOcc_eq_zero {p s : List Char} (h : p <+: s) : findOcc p s = some 0 := by
  cases s with
  | nil => simp [findOcc, List.isPrefixOf_iff_prefix, h]
  | cons c r => simp [findOcc, List.isPrefixOf_iff_prefix, h]

theorem findOcc_cons_of_not {p : List Char} {c : Char} {r : List Char}
    (h : ¬ p <+: (c :: r)) : findOcc p (c :: r) = (findOcc p r).map (· + 1) := by
  simp [findOcc, List.isPrefixOf_iff_prefix, h]

theorem findOcc_none_drop {p s : List Char} (h : findOcc p s = none) :
    ∀ i, ¬ p <+: s.drop i := by
  induction s with
  | nil =>
    intro i hp
    rw [List.drop_nil] at hp
    simp [findOcc, List.isPrefixOf_iff_prefix, hp] at h
  | cons c r ih =>
    intro i
    by_cases hp : p <+: (c :: r)
    · simp [findOcc, List.isPrefixOf_iff_prefix, hp] at h
    · have hr : findOcc p r = none := by
        rw [findOcc_cons_of_not hp] at h
        cases hfr : findOcc p r with
        | none => rfl
        | some j => rw [hfr] at h; simp at h
      cases i with
      | zero => simpa using hp
      | succ i => simpa using ih hr i

theorem findOcc_eq_none_of {p s : List Char} (h : ∀ i, ¬ p <+: s.drop i) :
    findOcc p s = none := by
  induction s with
  | nil => simpa [findOcc, List.isPrefixOf_iff_prefix] using h 0
  | cons c r ih =>
    have h0 : ¬ p <+: (c :: r) := by simpa using h 0
    rw [findOcc_cons_of_not h0, ih (fun i => by simpa using h (i + 1))]
    rfl

theorem findOcc_some_spec {p s : List Char} {j : Nat} (h : findOcc p s = some j) :
    p <+: s.drop j ∧ ∀ i, i < j → ¬ p <+: s.drop i := by
  induction s generalizing j with
  | nil =>
    by_cases hp : p <+: ([] : List Char)
    · have := findOcc_eq_zero (s := ([] : List Char)) hp
      rw [this] at h
      obtain rfl : j = 0 := by simpa using h.symm
      exact ⟨by simpa using hp, by omega⟩
    · simp [findOcc, List.isPrefixOf_iff_prefix, hp] at h
  | cons c r ih =>
    by_cases hp : p <+: (c :: r)
    · rw [findOcc_eq_zero hp] at h
      obtain rfl : j = 0 := by simpa using h.symm
      exact ⟨by simpa using hp, by omega⟩
    · rw [findOcc_cons_of_not hp] at h
      cases hfr : findOcc p r with
      | none => rw [hfr] at h; simp at h
      | some j' =>
        rw [hfr] at h
        obtain rfl : j = j' + 1 := by simpa using h.symm
        obtain ⟨h1, h2⟩ := ih hfr
        refine ⟨by simpa using h1, ?_⟩
        intro i hi
        cases i with
        | zero => simpa using hp
        | succ i => simpa using h2 i (by omega)

theorem findOcc_marker (A rest : List Char) (hA : btick ∉ A) :
    findOcc nlTicks (A ++ (nlTicks ++ rest)) = some A.length := by
  induction A with
  | nil => simpa using findOcc_eq_zero (List.prefix_append nlTicks rest)
  | cons a A' ih =>
    have hp : ¬ nlTicks <+: (a :: (A' ++ (nlTicks ++ rest))) := by
      rw [nlTicks_eq]
      intro hp
      obtain ⟨ha, hp'⟩ := List.cons_prefix_cons.mp hp
      cases A' with
      | nil =>
        have hp2 : [btick, btick, btick] <+: '\n' :: ([btick, btick, btick] ++ rest) := by
          simpa using hp'
        obtain ⟨hb, _⟩ := List.cons_prefix_cons.mp hp2
        exact absurd hb (by decide)
      | cons b B =>
        obtain ⟨hb, _⟩ := List.cons_prefix_cons.mp hp'
        exact hA (by rw [hb]; exact List.mem_cons_of_mem a (List.mem_cons_self b B))
    rw [List.cons_append, findOcc_cons_of_not hp,
      ih (fun hm => hA (List.mem_cons_of_mem a hm))]
    rfl

theorem scanFirst_of_some {f : List Char → Option (List Char × List Char)}
    {s : List Char} {r : List Char × List Char} (h : f s = some r) :
    scanFirst f s = some r := by
  cases s with
  | nil => simpa [scanFirst] using h
  | cons c rest => simp [scanFirst, h]

theorem scanFirst_cons_none {f : List Char → Option (List Char × List Char)}
    {c : Char} {rest : List Char} (h : f (c :: rest) = none) :
    scanFirst f (c :: rest) = scanFirst f rest := by
  simp [scanFirst, h]

theorem scanFirst_eq_none {f : List Char → Option (List Char × List Char)}
    {s : List Char} (h : ∀ i, f (s.drop i) = none) : scanFirst f s = none := by
  induction s with
  | nil => simpa [scanFirst] using h 0
  | cons c rest ih =>
    rw [scanFirst_cons_none (by simpa using h 0)]
    exact ih (fun i => by simpa using h (i + 1))

theorem scanFirst_none_imp {f : List Char → Option (List Char × List Char)}
    {s : List Char} (h : scanFirst f s = none) : ∀ i, f (s.drop i) = none := by
  induction s with
  | nil =>
    intro i
    simpa [scanFirst] using h
  | cons c rest ih =>
    have h0 : f (c :: rest) = none := by
      cases hf : f (c :: rest) with
      | none => rfl
      | some r => rw [scanFirst_of_some hf] at h; exact absurd h (by simp)
    rw [scanFirst_cons_none h0] at h
    intro i
    cases i with
    | zero => simpa using h0
    | succ i => simpa using ih h i

theorem scanFirst_append_none {f : List Char → Option (List Char × List Char)}
    (X Y : List Char) (h : ∀ i, i < X.length → f ((X ++ Y).drop i) = none) :
    scanFirst f (X ++ Y) = scanFirst f Y := by
  induction X with
  | nil => rfl
  | cons c X' ih =>
    have h0 : f (c :: (X' ++ Y)) = none := by simpa using h 0 (by simp)
    rw [List.cons_append, scanFirst_cons_none h0]
    exact ih (fun i hi => by simpa using h (i + 1) (by simpa using Nat.succ_lt_succ hi))

theorem dropTag_word (w X : List Char) (hw : ∀ c ∈ w, isWordChar c = true) :
    dropTag (w ++ '\n' :: X) = '\n' :: X := by
  induction w with
  | nil => simp [dropTag, (by decide : isWordChar '\n' = false)]
  | cons c w' ih =>
    rw [List.cons_append]
    simp [dropTag, hw c (List.mem_cons_self c w'),
      ih (fun d hd => hw d (List.mem_cons_of_mem c hd))]

theorem fenceAt_eq (tag A rest : List Char) (htag : ∀ c ∈ tag, isWordChar c = true)
    (hA : btick ∉ A) :
    fenceAt (ticks3 ++ (tag ++ '\n' :: (A ++ (nlTicks ++ rest))))
      = some (A, (A ++ (nlTicks ++ rest)).drop (A.length + 4)) := by
  have hpre : ticks3.isPrefixOf (ticks3 ++ (tag ++ '\n' :: (A ++ (nlTicks ++ rest)))) = true :=
    List.isPrefixOf_iff_prefix.mpr (List.prefix_append _ _)
  have hdrop : (ticks3 ++ (tag ++ '\n' :: (A ++ (nlTicks ++ rest)))).drop 3
      = tag ++ '\n' :: (A ++ (nlTicks ++ rest)) := by
    have h3 : ticks3.length = 3 := by decide
    rw [← h3, List.drop_left]
  unfold fenceAt
  rw [if_pos hpre, hdrop, dropTag_word tag _ htag]
  show (if '\n' = '\n' then fenceBody (A ++ (nlTicks ++ rest)) else none)
    = some (A, (A ++ (nlTicks ++ rest)).drop (A.length + 4))
  rw [if_pos rfl]
  unfold fenceBody
  rw [findOcc_marker A rest hA]
  simp [List.take_left]

theorem fenceAt_cons_ne {c : Char} (W : List Char) (h : c ≠ btick) :
    fenceAt (c :: W) = none := by
  have hpre : ¬ ticks3.isPrefixOf (c :: W) = true := by
    rw [ List.isPrefixOf_iff_prefix, ticks3_eq]
    intro hp
    obtain ⟨he, _⟩ := List.cons_prefix_cons.mp hp
    exact h he.symm
  unfold fenceAt
  rw [if_neg hpre]

theorem fence2At_none {s : List Char} (h : fenceAt s = none) : fence2At s = none := by
  by_cases hp : "```\n".toList.isPrefixOf s = true
  · obtain ⟨X, hX⟩ := List.isPrefixOf_iff_prefix.mp hp
    have hsX : s = ticks3 ++ ([] ++ '\n' :: X) := hX.symm
    rw [hsX] at h ⊢
    have hpre : ticks3.isPrefixOf (ticks3 ++ ([] ++ '\n' :: X)) = true :=
      List.isPrefixOf_iff_prefix.mpr (List.prefix_append _ _)
    have hdrop : (ticks3 ++ ([] ++ '\n' :: X)).drop 3 = [] ++ '\n' :: X := by
      have h3 : ticks3.length = 3 := by decide
      rw [← h3, List.drop_left]
    unfold fenceAt at h
    rw [if_pos hpre, hdrop, dropTag_word [] X (by simp)] at h
    have hbody : fenceBody X = none := by
      have hstep : (if '\n' = '\n' then fenceBody X else none) = none := h
      rwa [if_pos rfl] at hstep
    have hp4 : "```\n".toList.isPrefixOf (ticks3 ++ ([] ++ '\n' :: X)) = true := by
      rw [ List.isPrefixOf_iff_prefix]
      exact ⟨X, rfl⟩
    unfold fence2At
    rw [if_pos hp4]
    have hdrop4 : (ticks3 ++ ([] ++ '\n' :: X)).drop 4 = X := by
      have heq : (ticks3 ++ ([] ++ '\n' :: X)) = "```\n".toList ++ X := rfl
      rw [heq]
      have h4 : ("```\n".toList).length = 4 := by decide
      rw [← h4, List.drop_left]
    rw [hdrop4]
    exact hbody
  · unfold fence2At
    rw [if_neg hp]

theorem findOcc_take_none {p s : List Char} {j : Nat} (hp : p ≠ [])
    (h : findOcc p s = some j) : findOcc p (s.take j) = none := by
  obtain ⟨_, hmin⟩ := findOcc_some_spec h
  apply findOcc_eq_none_of
  intro i hpre
  by_cases hij : i < j
  · exact hmin i hij (hpre.trans ((List.drop_take j i s ▸ List.take_prefix _ _)))
  · have hempty : (s.take j).drop i = [] := by
      apply List.drop_of_length_le
      calc (s.take j).length ≤ j := List.length_take_le j s
        _ ≤ i := by omega
    rw [hempty] at hpre
    exact hp (List.prefix_nil.mp hpre)

theorem extract_of_fence1 {t : List Char} {pr : List Char × List Char}
    (h : searchFence1 t = some pr) (hne : pyStrip pr.1 ≠ []) :
    extractRewrittenCode t = pyStrip pr.1 := by
  unfold extractRewrittenCode
  rw [h]
  simp [falsy, isEmpty_false_of_ne hne]

theorem findallFencesF_nil (fuel : Nat) (t : List Char)
    (h : ∀ i, fenceAt (t.drop i) = none) : findallFencesF fuel t = [] := by
  induction fuel generalizing t with
  | zero => rfl
  | succ fuel ih =>
    have h0 : fenceAt t = none := by simpa using h 0
    cases t with
    | nil => simp [findallFencesF, h0]
    | cons c r =>
      unfold findallFencesF
      rw [h0]
      simp only [Option.elim_none]
      exact ih r (fun i => by simpa using h (i + 1))

theorem extract_fallback {t : List Char} (h : ∀ i, fenceAt (t.drop i) = none) :
    extractRewrittenCode t = fallbackNotice ++ t := by
  have h1 : searchFence1 t = none := scanFirst_eq_none h
  have h2 : searchFence2 t = none := scanFirst_eq_none (fun i => fence2At_none (h i))
  have h3 : searchFence3 t = none := by
    apply scanFirst_eq_none
    intro i
    unfold fence3At
    by_cases hpr : rwHeader.isPrefixOf (t.drop i) = true
    · rw [if_pos hpr, List.drop_drop]
      exact h (i + rwHeader.length)
    · rw [if_neg hpr]
  have h4 : findallFences t = [] := findallFencesF_nil t.length t h
  unfold extractRewrittenCode
  rw [h1, h2, h3, h4]
  simp [falsy, maxByLen]

/-! Severity-count and parse-level lemmas. -/

theorem severityCount_none {hd t : List Char} (h : sectionFor hd sevTerm t = none) :
    severityCount hd t = 0 := by
  unfold severityCount
  rw [h]

theorem severityCount_of_bullets_pos {hd t s : List Char}
    (h : sectionFor hd sevTerm t = some s) (hb : 1 ≤ countBullets s true) :
    severityCount hd t = countBullets s true := by
  unfold severityCount
  rw [h]
  simp only []
  rw [if_neg (by omega)]
  exact Nat.max_eq_left hb

theorem severityCount_of_empty {hd t s : List Char}
    (h : sectionFor hd sevTerm t = some s) (hb : countBullets s true = 0)
    (hf : fallbackLineCount s = 0) :
    severityCount hd t = 1 := by
  unfold severityCount
  rw [h]
  simp only []
  rw [if_pos hb, hf]
  decide

theorem parse_issues (t : List Char) :
    (parse_review_response t).issues_found
      = severityCount critHeading t + severityCount highHeading t
        + severityCount mediumHeading t + severityCount lowHeading t := rfl

theorem parse_breakdown (t : List Char) :
    (parse_review_response t).severity_breakdown
      = ⟨severityCount critHeading t, severityCount highHeading t,
         severityCount mediumHeading t, severityCount lowHeading t⟩ := rfl

theorem parse_suggestions (t : List Char) :
    (parse_review_response t).suggestions = (extractSuggestions t).take 10 := rfl

theorem foldl_collect (l : List (List Char)) (acc : List (List Char)) :
    l.foldl
      (fun acc item =>
        let ic := pyStrip item
        if 20 < ic.length then acc ++ [truncSugg ic] else acc) acc
    = acc ++ (((l.map pyStrip).filter (fun ic => decide (20 < ic.length))).map truncSugg) := by
  induction l generalizing acc with
  | nil => simp
  | cons x l ih =>
    simp only [List.foldl_cons, List.map_cons, List.filter_cons]
    by_cases hx : 20 < (pyStrip x).length
    · rw [if_pos hx, ih]
      simp [hx]
    · rw [if_neg hx, ih]
      simp [hx]

theorem truncSugg_le (ic : List Char) : (truncSugg ic).length ≤ 203 := by
  unfold truncSugg
  by_cases hl : 200 < ic.length
  · rw [if_pos hl]
    simp [List.length_take]
  · rw [if_neg hl]
    omega

/-- Decomposition of a located section: the text splits as prefix,
section, suffix; the section starts with the heading; the terminator does
not occur in the section body; the suffix is empty or starts with the
terminator. -/
theorem sectionFor_decomp {hd term t s : List Char} (hterm : term ≠ [])
    (h : sectionFor hd term t = some s) :
    ∃ pre suf, t = pre ++ s ++ suf ∧ hd <+: s
      ∧ findOcc term (s.drop hd.length) = none
      ∧ (suf = [] ∨ term <+: suf) := by
  unfold sectionFor at h
  cases hfo : findOcc hd t with
  | none => rw [hfo] at h; simp at h
  | some i =>
    rw [hfo] at h
    simp only [Option.some.injEq] at h
    obtain rfl := h.symm
    obtain ⟨hpref, _⟩ := findOcc_some_spec hfo
    obtain ⟨u, hu⟩ := hpref
    have hAu : t.drop (i + hd.length) = u := by
      rw [← List.drop_drop hd.length i t, ← hu, List.drop_left]
    refine ⟨t.take i,
      (t.drop (i + hd.length)).drop
        ((findOcc term (t.drop (i + hd.length))).getD (t.drop (i + hd.length)).length),
      ?_, List.prefix_append hd _, ?_, ?_⟩
    · simp only [List.append_assoc]
      rw [List.take_append_drop
        ((findOcc term (t.drop (i + hd.length))).getD (t.drop (i + hd.length)).length)
        (t.drop (i + hd.length)), hAu, hu, List.take_append_drop]
    · rw [List.drop_left]
      cases hf2 : findOcc term (t.drop (i + hd.length)) with
      | some j2 =>
        simp only [hf2, Option.getD_some]
        exact findOcc_take_none hterm hf2
      | none =>
        simp only [hf2, Option.getD_none]
        rw [List.take_length]
        exact hf2
    · cases hf2 : findOcc term (t.drop (i + hd.length)) with
      | some j2 =>
        simp only [hf2, Option.getD_some]
        exact Or.inr (findOcc_some_spec hf2).1
      | none =>
        simp only [hf2, Option.getD_none]
        exact Or.inl (List.drop_length _)

/-! Claim theorems. -/

/-- Claim C1: for a review text in which all four severity headings are
present and each located section contains at least one bulleted line, the
issues_found value equals the exact sum of bulleted lines across the four
severity sections. -/
theorem C1_issues_found_exact_sum (t sc sh sm sl : List Char)
    (hc : sectionFor critHeading sevTerm t = some sc) (hbc : 1 ≤ countBullets sc true)
    (hh : sectionFor highHeading sevTerm t = some sh) (hbh : 1 ≤ countBullets sh true)
    (hm : sectionFor mediumHeading sevTerm t = some sm) (hbm : 1 ≤ countBullets sm true)
    (hl : sectionFor lowHeading sevTerm t = some sl) (hbl : 1 ≤ countBullets sl true) :
    (parse_review_response t).issues_found
      = countBullets sc true + countBullets sh true
        + countBullets sm true + countBullets sl true := by
  rw [parse_issues, severityCount_of_bullets_pos hc hbc,
    severityCount_of_bullets_pos hh hbh, severityCount_of_bullets_pos hm hbm,
    severityCount_of_bullets_pos hl hbl]

/-- Witness for C1 at a concrete review text with one, two, one and one
bulleted lines in the four sections. -/
theorem C1_issues_found_exact_sum_witness :
    sectionFor critHeading sevTerm ("### 🔴 Critical Issues\n- a\n### 🟠 High Priority\n- b\n- c\n### 🟡 Medium Priority\n- d\n### 🟢 Low Priority\n- e\n".toList)
      = some ("### 🔴 Critical Issues\n- a\n".toList)
  ∧ 1 ≤ countBullets ("### 🔴 Critical Issues\n- a\n".toList) true
  ∧ sectionFor highHeading sevTerm ("### 🔴 Critical Issues\n- a\n### 🟠 High Priority\n- b\n- c\n### 🟡 Medium Priority\n- d\n### 🟢 Low Priority\n- e\n".toList)
      = some ("### 🟠 High Priority\n- b\n- c\n".toList)
  ∧ 1 ≤ countBullets ("### 🟠 High Priority\n- b\n- c\n".toList) true
  ∧ sectionFor mediumHeading sevTerm ("### 🔴 Critical Issues\n- a\n### 🟠 High Priority\n- b\n- c\n### 🟡 Medium Priority\n- d\n### 🟢 Low Priority\n- e\n".toList)
      = some ("### 🟡 Medium Priority\n- d\n".toList)
  ∧ 1 ≤ countBullets ("### 🟡 Medium Priority\n- d\n".toList) true
  ∧ sectionFor lowHeading sevTerm ("### 🔴 Critical Issues\n- a\n### 🟠 High Priority\n- b\n- c\n### 🟡 Medium Priority\n- d\n### 🟢 Low Priority\n- e\n".toList)
      = some ("### 🟢 Low Priority\n- e\n".toList)
  ∧ 1 ≤ countBullets ("### 🟢 Low Priority\n- e\n".toList) true
  ∧ (parse_review_response ("### 🔴 Critical Issues\n- a\n### 🟠 High Priority\n- b\n- c\n### 🟡 Medium Priority\n- d\n### 🟢 Low Priority\n- e\n".toList)).issues_found
      = countBullets ("### 🔴 Critical Issues\n- a\n".toList) true
        + countBullets ("### 🟠 High Priority\n- b\n- c\n".toList) true
        + countBullets ("### 🟡 Medium Priority\n- d\n".toList) true
        + countBullets ("### 🟢 Low Priority\n- e\n".toList) true :=
  ⟨by decide, by decide, by decide, by decide, by decide, by decide, by decide, by decide,
    C1_issues_found_exact_sum _ _ _ _ _ (by decide) (by decide) (by decide) (by decide)
      (by decide) (by decide) (by decide) (by decide)⟩

/-- Counterexample for C3: a double-hash heading does not terminate a
severity section, so the two bulleted lines after the Strengths heading
are still counted in the low bucket, which ends up 3 where the claim
predicts 1. -/
theorem C3_counterexample :
    (parse_review_response ("### 🟢 Low Priority\n- a\n## Strengths\n- b\n- c".toList)).severity_breakdown.low = 3
  ∧ (parse_review_response ("### 🟢 Low Priority\n- a\n## Strengths\n- b\n- c".toList)).severity_breakdown.low ≠ 1 :=
  ⟨by decide, by decide⟩

/-- Claim C3 (amended): a located severity section spans from its heading
line to the next occurrence of three consecutive hash characters, or to
the end of the text; a double-hash heading does not terminate it. -/
theorem C3_section_spans_to_triple_hash (hd t s : List Char)
    (h : sectionFor hd sevTerm t = some s) :
    ∃ pre suf, t = pre ++ s ++ suf ∧ hd <+: s
      ∧ findOcc sevTerm (s.drop hd.length) = none
      ∧ (suf = [] ∨ sevTerm <+: suf) :=
  sectionFor_decomp (by decide) h

/-- Witness for the amended C3 at a concrete review text. -/
theorem C3_section_spans_to_triple_hash_witness :
    sectionFor critHeading sevTerm ("pre\n### 🔴 Critical Issues\n- x\n### 🟠 High Priority\n- y".toList)
      = some ("### 🔴 Critical Issues\n- x\n".toList)
  ∧ ∃ pre suf,
      "pre\n### 🔴 Critical Issues\n- x\n### 🟠 High Priority\n- y".toList
        = pre ++ "### 🔴 Critical Issues\n- x\n".toList ++ suf
      ∧ critHeading <+: "### 🔴 Critical Issues\n- x\n".toList
      ∧ findOcc sevTerm ("### 🔴 Critical Issues\n- x\n".toList.drop critHeading.length) = none
      ∧ (suf = [] ∨ sevTerm <+: suf) :=
  ⟨by decide, C3_section_spans_to_triple_hash critHeading _ _ (by decide)⟩

/-- Claim C4: a severity bucket whose heading is present but whose section
has zero detected line-items counts exactly 1; a bucket whose heading is
absent counts exactly 0. -/
theorem C4_bucket_defaults (t : List Char) :
    (sectionFor critHeading sevTerm t = none → (parse_review_response t).severity_breakdown.critical = 0)
  ∧ (∀ s, sectionFor critHeading sevTerm t = some s → countBullets s true = 0 →
      fallbackLineCount s = 0 → (parse_review_response t).severity_breakdown.critical = 1)
  ∧ (sectionFor highHeading sevTerm t = none → (parse_review_response t).severity_breakdown.high = 0)
  ∧ (∀ s, sectionFor highHeading sevTerm t = some s → countBullets s true = 0 →
      fallbackLineCount s = 0 → (parse_review_response t).severity_breakdown.high = 1)
  ∧ (sectionFor mediumHeading sevTerm t = none → (parse_review_response t).severity_breakdown.medium = 0)
  ∧ (∀ s, sectionFor mediumHeading sevTerm t = some s → countBullets s true = 0 →
      fallbackLineCount s = 0 → (parse_review_response t).severity_breakdown.medium = 1)
  ∧ (sectionFor lowHeading sevTerm t = none → (parse_review_response t).severity_breakdown.low = 0)
  ∧ (∀ s, sectionFor lowHeading sevTerm t = some s → countBullets s true = 0 →
      fallbackLineCount s = 0 → (parse_review_response t).severity_breakdown.low = 1) := by
  refine ⟨fun h => ?_, fun s h hb hf => ?_, fun h => ?_, fun s h hb hf => ?_,
    fun h => ?_, fun s h hb hf => ?_, fun h => ?_, fun s h hb hf => ?_⟩
  · rw [parse_breakdown]; exact severityCount_none h
  · rw [parse_breakdown]; exact severityCount_of_empty h hb hf
  · rw [parse_breakdown]; exact severityCount_none h
  · rw [parse_breakdown]; exact severityCount_of_empty h hb hf
  · rw [parse_breakdown]; exact severityCount_none h
  · rw [parse_breakdown]; exact severityCount_of_empty h hb hf
  · rw [parse_breakdown]; exact severityCount_none h
  · rw [parse_breakdown]; exact severityCount_of_empty h hb hf

/-- Witness for C4: an absent critical heading gives 0; a critical heading
with an empty body gives 1. -/
theorem C4_bucket_defaults_witness :
    (sectionFor critHeading sevTerm ("no headings".toList) = none
      ∧ (parse_review_response ("no headings".toList)).severity_breakdown.critical = 0)
  ∧ (sectionFor critHeading sevTerm ("### 🔴 Critical Issues".toList)
        = some ("### 🔴 Critical Issues".toList)
      ∧ countBullets ("### 🔴 Critical Issues".toList) true = 0
      ∧ fallbackLineCount ("### 🔴 Critical Issues".toList) = 0
      ∧ (parse_review_response ("### 🔴 Critical Issues".toList)).severity_breakdown.critical = 1) :=
  ⟨⟨by decide, (C4_bucket_defaults _).1 (by decide)⟩,
   ⟨by decide, by decide, by decide,
    (C4_bucket_defaults _).2.1 ("### 🔴 Critical Issues".toList)
      (by decide) (by decide) (by decide)⟩⟩

/-- Claim C5: in a located suggestions section, the body is split on
markers, the first fragment is dropped, the remaining fragments are
trimmed, kept only when longer than 20 characters, truncated past 200
characters with an ellipsis, and at most the first 10 survive in order;
every returned description is at most 203 characters long. -/
theorem C5_suggestions_processing (t s : List Char)
    (hs : sectionFor suggHeading suggTerm t = some s) :
    (parse_review_response t).suggestions
      = (((((splitMarkers s true).drop 1).map pyStrip).filter
          (fun ic => decide (20 < ic.length))).map truncSugg).take 10
  ∧ ∀ d ∈ (parse_review_response t).suggestions, d.length ≤ 203 := by
  have hsug : extractSuggestions t
      = ((((splitMarkers s true).drop 1).map pyStrip).filter
          (fun ic => decide (20 < ic.length))).map truncSugg := by
    unfold extractSuggestions
    rw [hs]
    show ((splitMarkers s true).drop 1).foldl
        (fun acc item =>
          let ic := pyStrip item
          if 20 < ic.length then acc ++ [truncSugg ic] else acc) []
      = _
    rw [foldl_collect]
    simp
  constructor
  · rw [parse_suggestions, hsug]
  · intro d hd
    rw [parse_suggestions, hsug] at hd
    have hd' := List.take_subset 10 _ hd
    obtain ⟨x, _, hx⟩ := List.mem_map.mp hd'
    rw [← hx]
    exact truncSugg_le x

/-- Witness for C5 at a section with one 21-character fragment (kept) and
one 20-character fragment (discarded). -/
theorem C5_suggestions_processing_witness :
    sectionFor suggHeading suggTerm ("## 🔧 Suggested Improvements\n1. aaaaaaaaaaaaaaaaaaaaa\n2. bbbbbbbbbbbbbbbbbbbb\n".toList)
      = some ("## 🔧 Suggested Improvements\n1. aaaaaaaaaaaaaaaaaaaaa\n2. bbbbbbbbbbbbbbbbbbbb\n".toList)
  ∧ ((parse_review_response ("## 🔧 Suggested Improvements\n1. aaaaaaaaaaaaaaaaaaaaa\n2. bbbbbbbbbbbbbbbbbbbb\n".toList)).suggestions
      = (((((splitMarkers ("## 🔧 Suggested Improvements\n1. aaaaaaaaaaaaaaaaaaaaa\n2. bbbbbbbbbbbbbbbbbbbb\n".toList) true).drop 1).map pyStrip).filter
          (fun ic => decide (20 < ic.length))).map truncSugg).take 10
    ∧ ∀ d ∈ (parse_review_response ("## 🔧 Suggested Improvements\n1. aaaaaaaaaaaaaaaaaaaaa\n2. bbbbbbbbbbbbbbbbbbbb\n".toList)).suggestions,
        d.length ≤ 203) :=
  ⟨by decide, C5_suggestions_processing _ _ (by decide)⟩

/-- Claim C6: the parser is a total function and degrades missing sections
to their defaults: an absent severity heading gives a zero count, an
absent suggestions section gives the empty list, at most 10 suggestions
are returned, and the total is the sum of the four buckets. -/
theorem C6_total_with_defaults (t : List Char) :
    (sectionFor critHeading sevTerm t = none → (parse_review_response t).severity_breakdown.critical = 0)
  ∧ (sectionFor highHeading sevTerm t = none → (parse_review_response t).severity_breakdown.high = 0)
  ∧ (sectionFor mediumHeading sevTerm t = none → (parse_review_response t).severity_breakdown.medium = 0)
  ∧ (sectionFor lowHeading sevTerm t = none → (parse_review_response t).severity_breakdown.low = 0)
  ∧ (sectionFor suggHeading suggTerm t = none → (parse_review_response t).suggestions = [])
  ∧ (parse_review_response t).suggestions.length ≤ 10
  ∧ (parse_review_response t).issues_found
      = (parse_review_response t).severity_breakdown.critical
        + (parse_review_response t).severity_breakdown.high
        + (parse_review_response t).severity_breakdown.medium
        + (parse_review_response t).severity_breakdown.low := by
  refine ⟨fun h => ?_, fun h => ?_, fun h => ?_, fun h => ?_, fun h => ?_, ?_, ?_⟩
  · rw [parse_breakdown]; exact severityCount_none h
  · rw [parse_breakdown]; exact severityCount_none h
  · rw [parse_breakdown]; exact severityCount_none h
  · rw [parse_breakdown]; exact severityCount_none h
  · rw [parse_suggestions]; simp [extractSuggestions, h]
  · rw [parse_suggestions]; exact List.length_take_le 10 _
  · rfl

/-- Witness for C6 at a text with no recognizable sections. -/
theorem C6_total_with_defaults_witness :
    sectionFor suggHeading suggTerm ("plain words".toList) = none
  ∧ (parse_review_response ("plain words".toList)).suggestions = []
  ∧ (parse_review_response ("plain words".toList)).suggestions.length ≤ 10 :=
  ⟨by decide, (C6_total_with_defaults _).2.2.2.2.1 (by decide),
   (C6_total_with_defaults _).2.2.2.2.2.1⟩

/-- Counterexample for C2: on a response with two untagged fenced blocks,
the extraction returns the FIRST block body, not the longer one, because
the first cascade pattern has an optional language tag and already matches
untagged blocks. -/
theorem C2_counterexample :
    extractRewrittenCode ("```\nA\n```\nmid\n```\nBB\n```".toList) = "A".toList
  ∧ "A".toList ≠ "BB".toList :=
  ⟨by decide, by decide⟩

/-- Claim C2 (amended): for a rewrite response containing two untagged
fenced blocks whose bodies hold no backtick, with no backtick before the
first block, the extracted code is the FIRST block body, trimmed, whenever
that trim is non-empty.  Pattern (a) of the cascade carries an optional
tag, so it subsumes untagged blocks and the longest-block rule is not
reached. -/
theorem C2_first_untagged_block (pre A mid B : List Char)
    (hpre : btick ∉ pre) (hA : btick ∉ A) (hmid : btick ∉ mid) (hB : btick ∉ B)
    (hne : pyStrip A ≠ []) :
    extractRewrittenCode (pre ++ "```\n".toList ++ A ++ "\n```".toList ++ mid
      ++ "```\n".toList ++ B ++ "\n```".toList) = pyStrip A := by
  have hfence : fenceAt ("```\n".toList ++ (A ++ ("\n```".toList
        ++ (mid ++ ("```\n".toList ++ (B ++ "\n```".toList))))))
      = some (A, (A ++ (nlTicks ++ (mid ++ ("```\n".toList ++ (B ++ "\n```".toList))))).drop
          (A.length + 4)) :=
    fenceAt_eq [] A (mid ++ ("```\n".toList ++ (B ++ "\n```".toList))) (by simp) hA
  have hsearch : searchFence1 (pre ++ ("```\n".toList ++ (A ++ ("\n```".toList
        ++ (mid ++ ("```\n".toList ++ (B ++ "\n```".toList)))))))
      = some (A, (A ++ (nlTicks ++ (mid ++ ("```\n".toList ++ (B ++ "\n```".toList))))).drop
          (A.length + 4)) := by
    unfold searchFence1
    rw [scanFirst_append_none pre _ ?hskip]
    · exact scanFirst_of_some hfence
    case hskip =>
      intro i hi
      rw [List.drop_append_of_le_length (le_of_lt hi),
        List.drop_eq_getElem_cons hi, List.cons_append]
      exact fenceAt_cons_ne _ (fun he => hpre (he ▸ List.getElem_mem hi))
  simpa only [List.append_assoc] using extract_of_fence1 hsearch hne

/-- Witness for the amended C2 at concrete blocks. -/
theorem C2_first_untagged_block_witness :
    btick ∉ "x\n".toList ∧ btick ∉ "first".toList ∧ btick ∉ "\n".toList
  ∧ btick ∉ "second block".toList ∧ pyStrip ("first".toList) ≠ []
  ∧ extractRewrittenCode ("x\n".toList ++ "```\n".toList ++ "first".toList
      ++ "\n```".toList ++ "\n".toList ++ "```\n".toList ++ "second block".toList
      ++ "\n```".toList) = pyStrip ("first".toList) :=
  ⟨by decide, by decide, by decide, by decide, by decide,
    C2_first_untagged_block _ _ _ _ (by decide) (by decide) (by decide) (by decide)
      (by decide)⟩

/-- Claim C7: a request whose code is empty after trimming is rejected by
either endpoint with status 400 and zero external completion calls,
whatever the external completion function would do. -/
theorem C7_empty_code_validation
    (cr cw : List Char → List Char → Except (List Char) (List Char))
    (reqR : CodeReviewRequest) (reqW : CodeRewriteRequest)
    (hR : pyStrip reqR.code = []) (hW : pyStrip reqW.code = []) :
    review_code cr reqR = (Except.error ⟨400, "Code cannot be empty".toList⟩, 0)
  ∧ rewrite_code cw reqW = (Except.error ⟨400, "Code cannot be empty".toList⟩, 0) := by
  constructor
  · unfold review_code
    rw [hR]
    rfl
  · unfold rewrite_code
    rw [hW]
    rfl

/-- Witness for C7 at whitespace-only request code. -/
theorem C7_empty_code_validation_witness :
    pyStrip (" \n ".toList) = ([] : List Char)
  ∧ review_code (fun _ _ => Except.ok []) ⟨" \n ".toList, "python".toList, []⟩
      = (Except.error ⟨400, "Code cannot be empty".toList⟩, 0)
  ∧ rewrite_code (fun _ _ => Except.ok []) ⟨" \n ".toList, "python".toList, "r".toList⟩
      = (Except.error ⟨400, "Code cannot be empty".toList⟩, 0) :=
  ⟨by decide,
   (C7_empty_code_validation (fun _ _ => Except.ok []) (fun _ _ => Except.ok [])
     ⟨" \n ".toList, "python".toList, []⟩ ⟨" \n ".toList, "python".toList, "r".toList⟩
     (by decide) (by decide)).1,
   (C7_empty_code_validation (fun _ _ => Except.ok []) (fun _ _ => Except.ok [])
     ⟨" \n ".toList, "python".toList, []⟩ ⟨" \n ".toList, "python".toList, "r".toList⟩
     (by decide) (by decide)).2⟩

/-- Counterexample for C8: a single python-tagged fenced block whose body
is whitespace only strips to the empty string, which is falsy, so the
cascade falls through to the could-not-extract notice instead of returning
the trimmed body. -/
theorem C8_counterexample :
    extractRewrittenCode ("```python\n \n```".toList)
      = fallbackNotice ++ "```python\n \n```".toList
  ∧ extractRewrittenCode ("```python\n \n```".toList) ≠ pyStrip (" ".toList) :=
  ⟨by decide, by decide⟩

/-- Claim C8 (amended): for a rewrite response containing exactly one
fenced block, tagged python, whose body holds no backtick and does not
trim to the empty string, the extracted code equals that body, trimmed. -/
theorem C8_python_block (pre A post : List Char)
    (hpre : btick ∉ pre) (hA : btick ∉ A) (hpost : btick ∉ post)
    (hne : pyStrip A ≠ []) :
    extractRewrittenCode (pre ++ "```python\n".toList ++ A ++ "\n```".toList ++ post)
      = pyStrip A := by
  have hfence : fenceAt ("```python\n".toList ++ (A ++ ("\n```".toList ++ post)))
      = some (A, (A ++ (nlTicks ++ post)).drop (A.length + 4)) :=
    fenceAt_eq ("python".toList) A post (by decide) hA
  have hsearch : searchFence1 (pre ++ ("```python\n".toList ++ (A ++ ("\n```".toList ++ post))))
      = some (A, (A ++ (nlTicks ++ post)).drop (A.length + 4)) := by
    unfold searchFence1
    rw [scanFirst_append_none pre _ ?hskip]
    · exact scanFirst_of_some hfence
    case hskip =>
      intro i hi
      rw [List.drop_append_of_le_length (le_of_lt hi),
        List.drop_eq_getElem_cons hi, List.cons_append]
      exact fenceAt_cons_ne _ (fun he => hpre (he ▸ List.getElem_mem hi))
  simpa only [List.append_assoc] using extract_of_fence1 hsearch hne

/-- Witness for the amended C8 at a concrete python block. -/
theorem C8_python_block_witness :
    btick ∉ "intro\n".toList ∧ btick ∉ " def f(): pass ".toList
  ∧ btick ∉ "\ntail".toList ∧ pyStrip (" def f(): pass ".toList) ≠ []
  ∧ extractRewrittenCode ("intro\n".toList ++ "```python\n".toList
      ++ " def f(): pass ".toList ++ "\n```".toList ++ "\ntail".toList)
      = pyStrip (" def f(): pass ".toList) :=
  ⟨by decide, by decide, by decide, by decide,
    C8_python_block _ _ _ (by decide) (by decide) (by decide) (by decide)⟩

/-- Claim C9: when the fence pattern matches nowhere in the response, the
extracted code is the full raw response behind the fixed
could-not-extract notice. -/
theorem C9_no_fence_fallback (t : List Char) (h : searchFence1 t = none) :
    extractRewrittenCode t = fallbackNotice ++ t := by
  unfold searchFence1 at h
  exact extract_fallback (scanFirst_none_imp h)

/-- Witness for C9 at a fence-free response. -/
theorem C9_no_fence_fallback_witness :
    searchFence1 ("no fenced blocks at all".toList) = none
  ∧ extractRewrittenCode ("no fenced blocks at all".toList)
      = fallbackNotice ++ "no fenced blocks at all".toList :=
  ⟨by decide, C9_no_fence_fallback _ (by decide)⟩

/-- Claim C10: every successful rewrite response carries the request code
verbatim in its original_code field. -/
theorem C10_original_code_preserved
    (complete : List Char → List Char → Except (List Char) (List Char))
    (req : CodeRewriteRequest) (resp : CodeRewriteResponse) (n : Nat)
    (h : rewrite_code complete req = (Except.ok resp, n)) :
    resp.original_code = req.code := by
  unfold rewrite_code at h
  by_cases hg : (pyStrip req.code).isEmpty
  · rw [if_pos hg] at h
    simp at h
  · rw [if_neg hg] at h
    cases hc : complete rewriteSystemMsg (buildRewritePrompt req) with
    | error e => rw [hc] at h; simp at h
    | ok text =>
      rw [hc] at h
      simp only [Prod.mk.injEq, Except.ok.injEq] at h
      obtain ⟨h1, _⟩ := h
      rw [← h1]

/-- Witness for C10 at a concrete successful rewrite call. -/
theorem C10_original_code_preserved_witness :
    rewrite_code (fun _ _ => Except.ok ("t".toList))
        ⟨"code".toList, "py".toList, "rev".toList⟩
      = (Except.ok ⟨"code".toList, fallbackNotice ++ "t".toList,
          defaultExplanation, defaultImprovements⟩, 1)
  ∧ (⟨"code".toList, fallbackNotice ++ "t".toList, defaultExplanation,
      defaultImprovements⟩ : CodeRewriteResponse).original_code = "code".toList :=
  ⟨by decide,
    C10_original_code_preserved (fun _ _ => Except.ok ("t".toList))
      ⟨"code".toList, "py".toList, "rev".toList⟩
      ⟨"code".toList, fallbackNotice ++ "t".toList, defaultExplanation,
        defaultImprovements⟩ 1 (by decide)⟩

end CodeRev
